import Mathlib

/-!
Verification of `src/main.py` (TodoistSorter): a shallow embedding of the
`run` coroutine and proofs about its spec claims.

Modelling choices (all traced to the source):
* `Task` embeds the fields of a Todoist task that `run` reads: `id`,
  `content`, `section_id` (an optional string).  Python's truthiness test
  `not task.section_id` is false exactly when `section_id` is a non-empty
  string, so we embed it as `sectionIdTruthy`.
* `World` packages the external collaborators `run` interacts with, already
  scoped to the fixed `project_id` the caller passes: the task paginator,
  the section paginator, the AI agent (`classify`, a function of the user
  prompt string) and `move_task`.  A paginator is `Except Err (List (List _))`:
  either the full ordered page list, or a raised error (an exception raised
  at any point of the `async for` propagates out of `run` before anything
  else happens, so the drained-or-raised view is observationally adequate).
* `asyncio.gather(..., return_exceptions=True)` returns one result per
  awaitable, in argument order, with each exception captured in place and
  no cancellation of siblings; since the spawned coroutines share no state,
  this is exactly `List.map` of the per-pair call outcome.
* `run` returns a `RunTrace` recording the observable effects: whether an
  exception aborted the run, the snapshot actually drained, the filtered
  unassigned list, the classifier request (if issued), the `move_task`
  calls issued (in submission order), their captured results, and the
  per-outcome log lines of the report loop.
-/

namespace TodoistSorter

/-- Errors raised by the external collaborators (fetch, classification);
carried as plain messages. -/
inductive Err where
  | fetch (msg : String) : Err
  | classification (msg : String) : Err
  deriving DecidableEq, Repr

/-- Embeds the fields of a Todoist task read by `run` in `src/main.py`:
`task.id`, `task.content`, `task.section_id`. -/
structure Task where
  id : String
  content : String
  section_id : Option String
  deriving DecidableEq, Repr

/-- Embeds the fields of a Todoist section read by `run`: `section.id`,
`section.name`. -/
structure Sec where
  id : String
  name : String
  deriving DecidableEq, Repr

/-- Embeds `TaskSectionAssignment` (main.py lines 16-18): one (task ID,
section ID) proposal returned by the agent. -/
structure TaskSectionAssignment where
  task_id : String
  section_id : String
  deriving DecidableEq, Repr

/-- Python truthiness of `task.section_id : Optional[str]`: truthy iff it is
a non-empty string.  `run` filters with `not task.section_id`. -/
def sectionIdTruthy : Option String → Bool
  | none => false
  | some s => s ≠ ""

/-- The external collaborators of `run`, scoped to one `project_id`. -/
structure World where
  getTasks : Except Err (List (List Task))
  getSections : Except Err (List (List Sec))
  classify : String → Except Err (List TaskSectionAssignment)
  moveTask : String → String → Except String Unit

/-- The captured result of one `move_task` awaitable under
`asyncio.gather(..., return_exceptions=True)`: the value, or the exception
in place. -/
inductive MoveResult where
  | ok : MoveResult
  | exn (msg : String) : MoveResult
  deriving DecidableEq, Repr

/-- Embeds one log line of the report loop (main.py lines 82-98). -/
structure LogLine where
  success : Bool
  taskName : String
  sectionName : String
  errMsg : Option String
  deriving DecidableEq, Repr

/-- Python `dict` built by a comprehension (`{task.id: task.content for task
in tasks}`, last write wins) read with `.get(key, default)`. -/
def dictGet (entries : List (String × String)) (key deflt : String) : String :=
  match entries.reverse.find? (fun e => e.1 == key) with
  | some e => e.2
  | none => deflt

/-- Embeds `f"{task.content} [TASK_ID: {task.id}]"` joined by newlines
(main.py line 58). -/
def renderTasks (ts : List Task) : String :=
  String.intercalate "\n" (ts.map fun t => t.content ++ " [TASK_ID: " ++ t.id ++ "]")

/-- Embeds `f"{section.name} [SECTION_ID: {section.id}]"` joined by newlines
(main.py line 61). -/
def renderSections (ss : List Sec) : String :=
  String.intercalate "\n" (ss.map fun s => s.name ++ " [SECTION_ID: " ++ s.id ++ "]")

/-- Embeds the `user_prompt` f-string of main.py lines 65-71. -/
def userPrompt (msgTasks msgSections : String) : String :=
  "\n    List of tasks:\n    " ++ msgTasks ++
  "\n\n    List of sections:\n    " ++ msgSections ++ "\n    "

/-- Embeds one iteration of the report loop (main.py lines 82-98): resolve
both IDs through the snapshot maps with raw-ID fallback, then emit a
success or failure line according to the captured result. -/
def reportLine (taskMap sectionMap : List (String × String))
    (pair : TaskSectionAssignment) (r : MoveResult) : LogLine :=
  let taskName := dictGet taskMap pair.task_id pair.task_id
  let sectionName := dictGet sectionMap pair.section_id pair.section_id
  match r with
  | .ok => ⟨true, taskName, sectionName, none⟩
  | .exn msg => ⟨false, taskName, sectionName, some msg⟩

/-- One captured `move_task` call under `gather(return_exceptions=True)`. -/
def applyMove (w : World) (pair : TaskSectionAssignment) : MoveResult :=
  match w.moveTask pair.task_id pair.section_id with
  | .ok _ => .ok
  | .error msg => .exn msg

/-- The observable effects of one execution of `run`. -/
structure RunTrace where
  aborted : Option Err
  snapshotTasks : List Task
  unassignedTasks : List Task
  sectionsFetched : Bool
  snapshotSections : List Sec
  classifierRequest : Option String
  moveCalls : List (String × String)
  moveResults : List MoveResult
  logLines : List LogLine
  deriving DecidableEq, Repr

/-- Shallow embedding of `run` (main.py lines 27-100).  Control flow is
line-faithful: drain the task pages; filter on `not task.section_id`;
return early when no task lacks a section; drain the section pages; build
the two ID→name maps from the full snapshot; render the prompt from the
unassigned tasks and all sections; invoke the agent; `gather` a
`move_task` call per returned pair with exceptions captured in place; zip
pairs with results and log one line each. -/
def run (w : World) : RunTrace :=
  match w.getTasks with
  | .error e => ⟨some e, [], [], false, [], none, [], [], []⟩
  | .ok taskPages =>
    let tasks := taskPages.flatten
    let nonAssigned := tasks.filter (fun t => !sectionIdTruthy t.section_id)
    if nonAssigned.isEmpty then
      ⟨none, tasks, [], false, [], none, [], [], []⟩
    else
      match w.getSections with
      | .error e => ⟨some e, tasks, nonAssigned, true, [], none, [], [], []⟩
      | .ok sectionPages =>
        let sections := sectionPages.flatten
        let taskMap := tasks.map (fun t => (t.id, t.content))
        let sectionMap := sections.map (fun s => (s.id, s.name))
        let prompt := userPrompt (renderTasks nonAssigned) (renderSections sections)
        match w.classify prompt with
        | .error e =>
          ⟨some e, tasks, nonAssigned, true, sections, some prompt, [], [], []⟩
        | .ok pairs =>
          let results := pairs.map (applyMove w)
          let logs := (pairs.zip results).map
            (fun pr => reportLine taskMap sectionMap pr.1 pr.2)
          ⟨none, tasks, nonAssigned, true, sections, some prompt,
            pairs.map (fun p => (p.task_id, p.section_id)), results, logs⟩

/-- The unassigned-task filter of main.py line 34, named for reuse in
statements. -/
def unassignedOf (tasks : List Task) : List Task :=
  tasks.filter (fun t => !sectionIdTruthy t.section_id)

/-- The prompt `run` sends to the agent, as a function of the snapshot. -/
def promptOf (tasks : List Task) (sections : List Sec) : String :=
  userPrompt (renderTasks (unassignedOf tasks)) (renderSections sections)

/-- Helper: a non-nil list is not `isEmpty`. -/
theorem isEmpty_false_of_ne_nil {α : Type} {l : List α} (h : l ≠ []) :
    l.isEmpty = false := by
  cases l with
  | nil => exact absurd rfl h
  | cons a t => rfl

/-- Helper: zipping a list with its own map and mapping collapses to one map. -/
theorem zip_map_self {α β γ : Type} (f : α → β) (g : α × β → γ) (l : List α) :
    (l.zip (l.map f)).map g = l.map (fun a => g (a, f a)) := by
  induction l with
  | nil => rfl
  | cons a l ih => simp [ih]

/-- Helper: the value of `run` when the task fetch raises. -/
theorem run_tasks_error_eq (w : World) (e : Err) (htp : w.getTasks = .error e) :
    run w = ⟨some e, [], [], false, [], none, [], [], []⟩ := by
  unfold run
  rw [htp]

/-- Helper: the value of `run` on the early-return (no unassigned task) path. -/
theorem run_noop_eq (w : World) (tp : List (List Task))
    (htp : w.getTasks = .ok tp) (hall : unassignedOf tp.flatten = []) :
    run w = ⟨none, tp.flatten, [], false, [], none, [], [], []⟩ := by
  simp only [unassignedOf] at hall
  unfold run
  rw [htp]
  dsimp only
  rw [if_pos (show _ = true by rw [hall]; rfl)]

/-- Helper: the value of `run` when there are unassigned tasks but the
section fetch raises. -/
theorem run_sections_error_eq (w : World) (tp : List (List Task)) (e : Err)
    (htp : w.getTasks = .ok tp) (hne : unassignedOf tp.flatten ≠ [])
    (hsp : w.getSections = .error e) :
    run w = ⟨some e, tp.flatten, unassignedOf tp.flatten, true, [], none, [], [], []⟩ := by
  simp only [unassignedOf] at hne ⊢
  unfold run
  rw [htp]
  dsimp only
  rw [if_neg (fun hN => Bool.false_ne_true ((isEmpty_false_of_ne_nil hne).symm.trans hN)), hsp]

/-- Helper: the value of `run` when the agent invocation raises. -/
theorem run_classify_error_eq (w : World) (tp : List (List Task))
    (sp : List (List Sec)) (e : Err)
    (htp : w.getTasks = .ok tp) (hne : unassignedOf tp.flatten ≠ [])
    (hsp : w.getSections = .ok sp)
    (hcl : w.classify (promptOf tp.flatten sp.flatten) = .error e) :
    run w = ⟨some e, tp.flatten, unassignedOf tp.flatten, true, sp.flatten,
      some (promptOf tp.flatten sp.flatten), [], [], []⟩ := by
  simp only [unassignedOf, promptOf] at hne hcl ⊢
  unfold run
  rw [htp]
  dsimp only
  rw [if_neg (fun hN => Bool.false_ne_true ((isEmpty_false_of_ne_nil hne).symm.trans hN)), hsp]
  dsimp only
  rw [hcl]

/-- Helper: the value of `run` on the path that reaches the apply phase. -/
theorem run_apply_eq (w : World) (tp : List (List Task)) (sp : List (List Sec))
    (pairs : List TaskSectionAssignment)
    (htp : w.getTasks = .ok tp) (hne : unassignedOf tp.flatten ≠ [])
    (hsp : w.getSections = .ok sp)
    (hcl : w.classify (promptOf tp.flatten sp.flatten) = .ok pairs) :
    run w = ⟨none, tp.flatten, unassignedOf tp.flatten, true, sp.flatten,
      some (promptOf tp.flatten sp.flatten),
      pairs.map (fun p => (p.task_id, p.section_id)),
      pairs.map (applyMove w),
      pairs.map (fun p => reportLine (tp.flatten.map (fun t => (t.id, t.content)))
        (sp.flatten.map (fun s => (s.id, s.name))) p (applyMove w p))⟩ := by
  simp only [unassignedOf, promptOf] at hne hcl ⊢
  unfold run
  rw [htp]
  dsimp only
  rw [if_neg (fun hN => Bool.false_ne_true ((isEmpty_false_of_ne_nil hne).symm.trans hN)), hsp]
  dsimp only
  rw [hcl]
  dsimp only
  rw [zip_map_self]

/-- Helper: membership in the unassigned filter. -/
theorem mem_unassignedOf_iff (tasks : List Task) (t : Task) :
    t ∈ unassignedOf tasks ↔ t ∈ tasks ∧ sectionIdTruthy t.section_id = false := by
  simp [unassignedOf, List.mem_filter]

/-- Helper: `find?` on a keyed list with distinct keys returns the unique
entry for the key. -/
theorem find?_keyed (l : List (String × String)) (k v : String)
    (hnd : (l.map Prod.fst).Nodup) (hm : (k, v) ∈ l) :
    l.find? (fun e => e.1 == k) = some (k, v) := by
  induction l with
  | nil => cases hm
  | cons a l ih =>
    simp only [List.map_cons, List.nodup_cons] at hnd
    rcases List.mem_cons.mp hm with h | h
    · rw [← h]
      rw [List.find?_cons_of_pos _ (by simp)]
    · have hak : a.1 ≠ k := by
        intro he
        exact hnd.1 (he ▸ (List.mem_map.mpr ⟨(k, v), h, rfl⟩))
      rw [List.find?_cons_of_neg _ (by simpa using hak)]
      exact ih hnd.2 h

/-- Helper: `dict.get(key, default)` falls back to the default when the key
is absent. -/
theorem dictGet_of_not_mem (entries : List (String × String)) (key deflt : String)
    (h : ∀ e ∈ entries, e.1 ≠ key) : dictGet entries key deflt = deflt := by
  unfold dictGet
  have hnone : entries.reverse.find? (fun e => e.1 == key) = none := by
    apply List.find?_eq_none.mpr
    intro x hx hbeq
    exact h x (List.mem_reverse.mp hx) (by simpa using hbeq)
  rw [hnone]

/-- Helper: `dict.get(key, default)` returns the stored value when the keys
are distinct and the entry is present. -/
theorem dictGet_of_mem_nodup (l : List (String × String)) (k v d : String)
    (hnd : (l.map Prod.fst).Nodup) (hm : (k, v) ∈ l) : dictGet l k d = v := by
  unfold dictGet
  rw [find?_keyed l.reverse k v
    (by rw [List.map_reverse]; exact List.nodup_reverse.mpr hnd)
    (List.mem_reverse.mpr hm)]

/-- Helper: the task-name field of a report line is the map lookup with
raw-ID fallback, whatever the captured result was. -/
theorem reportLine_taskName (tm sm : List (String × String))
    (p : TaskSectionAssignment) (r : MoveResult) :
    (reportLine tm sm p r).taskName = dictGet tm p.task_id p.task_id := by
  cases r <;> rfl

/-- Helper: the section-name field of a report line is the map lookup with
raw-ID fallback, whatever the captured result was. -/
theorem reportLine_sectionName (tm sm : List (String × String))
    (p : TaskSectionAssignment) (r : MoveResult) :
    (reportLine tm sm p r).sectionName = dictGet sm p.section_id p.section_id := by
  cases r <;> rfl

/-- The end-to-end scenario of spec §8: sections Work/Home, one unassigned
task "Buy milk", agent hallucinating the unknown section ID B999, a
store that accepts every mutation. -/
def hallucinationWorld : World where
  getTasks := .ok [[⟨"T1", "Buy milk", none⟩]]
  getSections := .ok [[⟨"B1", "Work"⟩, ⟨"B2", "Home"⟩]]
  classify := fun _ => .ok [⟨"T1", "B999"⟩]
  moveTask := fun _ _ => .ok ()

/-- The isolation mock of spec §8: three proposals, the second `move_task`
call raises, the first and third succeed. -/
def isolationWorld : World where
  getTasks := .ok [[⟨"T1", "a", none⟩, ⟨"T2", "b", none⟩, ⟨"T3", "c", none⟩]]
  getSections := .ok [[⟨"S1", "x"⟩, ⟨"S2", "y"⟩, ⟨"S3", "z"⟩]]
  classify := fun _ => .ok [⟨"T1", "S1"⟩, ⟨"T2", "S2"⟩, ⟨"T3", "S3"⟩]
  moveTask := fun tid _ => if tid = "T2" then .error "boom" else .ok ()

/-- The pagination mock of spec §8: task pages of sizes [2,3,1], two
single-element section pages. -/
def pagesWorld : World where
  getTasks := .ok [[⟨"T1", "a", none⟩, ⟨"T2", "b", none⟩],
    [⟨"T3", "c", none⟩, ⟨"T4", "d", none⟩, ⟨"T5", "e", none⟩],
    [⟨"T6", "f", none⟩]]
  getSections := .ok [[⟨"S1", "x"⟩], [⟨"S2", "y"⟩]]
  classify := fun _ => .ok []
  moveTask := fun _ _ => .ok ()

/-- A snapshot where every task already has a section; the remaining
collaborators raise if they are ever consulted. -/
def noopWorld : World where
  getTasks := .ok [[⟨"T1", "a", some "S1"⟩, ⟨"T2", "b", some "S2"⟩]]
  getSections := .error (.fetch "never called")
  classify := fun _ => .error (.classification "never called")
  moveTask := fun _ _ => .error "never called"

/-- A world whose task paginator raises on the first page. -/
def fetchFailWorld : World where
  getTasks := .error (.fetch "HTTP 500")
  getSections := .error (.fetch "HTTP 500")
  classify := fun _ => .error (.classification "unreachable")
  moveTask := fun _ _ => .ok ()

/-- A world whose agent proposes the same task twice, for two different
sections. -/
def dupWorld : World where
  getTasks := .ok [[⟨"T1", "a", none⟩]]
  getSections := .ok [[⟨"S1", "x"⟩, ⟨"S2", "y"⟩]]
  classify := fun _ => .ok [⟨"T1", "S1"⟩, ⟨"T1", "S2"⟩]
  moveTask := fun _ _ => .ok ()

/-- A snapshot mixing one already-assigned and one unassigned task. -/
def filterWorld : World where
  getTasks := .ok [[⟨"T1", "a", some "B1"⟩, ⟨"T2", "b", none⟩]]
  getSections := .ok [[⟨"B1", "Work"⟩]]
  classify := fun _ => .ok []
  moveTask := fun _ _ => .ok ()

/-- C1 counterexample: in the spec's own end-to-end scenario — the agent
returns the single proposal (T1, "B999") with "B999" absent from the
snapshot's section IDs — the claim predicts zero `move_task` calls and a
failed(invalid-reference) report line; the code instead issues exactly
one `move_task("T1","B999")` call and, the store accepting it, even logs
it as a success line with the raw section ID. -/
theorem C1_counterexample :
    "B999" ∉ (run hallucinationWorld).snapshotSections.map Sec.id ∧
    (run hallucinationWorld).moveCalls = [("T1", "B999")] ∧
    (run hallucinationWorld).logLines = [⟨true, "Buy milk", "B999", none⟩] := by
  refine ⟨by decide, ?_, ?_⟩ <;> rfl

/-- C1 (amended): `run` performs no referential validation before the apply
phase: every proposal the agent returns — including one whose task or
section ID is absent from the snapshot — is passed to the apply phase as
its own `move_task` call; an unresolvable ID surfaces only as the raw ID in
the report line. -/
theorem C1_no_validation (w : World) (tp : List (List Task))
    (sp : List (List Sec)) (pairs : List TaskSectionAssignment)
    (p : TaskSectionAssignment)
    (htp : w.getTasks = .ok tp) (hne : unassignedOf tp.flatten ≠ [])
    (hsp : w.getSections = .ok sp)
    (hcl : w.classify (promptOf tp.flatten sp.flatten) = .ok pairs)
    (hp : p ∈ pairs) :
    (p.task_id, p.section_id) ∈ (run w).moveCalls := by
  rw [run_apply_eq w tp sp pairs htp hne hsp hcl]
  exact List.mem_map.mpr ⟨p, hp, rfl⟩

/-- C1 witness: the amended statement applied to the hallucination
scenario: the invalid proposal (T1, "B999") does reach the apply phase. -/
theorem C1_no_validation_witness :
    ("T1", "B999") ∈ (run hallucinationWorld).moveCalls :=
  C1_no_validation hallucinationWorld _ _ _ ⟨"T1", "B999"⟩ rfl (by decide)
    rfl rfl (by decide)

/-- C2: on the path that reaches the apply phase, the run never aborts and
the captured result of every proposal is exactly the outcome of that
proposal's own `move_task` call — independent, index by index, of what any
sibling call did, for every list of proposals and every store behavior. -/
theorem C2_isolation (w : World) (tp : List (List Task))
    (sp : List (List Sec)) (pairs : List TaskSectionAssignment)
    (htp : w.getTasks = .ok tp) (hne : unassignedOf tp.flatten ≠ [])
    (hsp : w.getSections = .ok sp)
    (hcl : w.classify (promptOf tp.flatten sp.flatten) = .ok pairs) :
    (run w).aborted = none ∧
    (run w).moveResults.length = pairs.length ∧
    ∀ i : Nat, (run w).moveResults[i]? = (pairs[i]?).map (applyMove w) := by
  rw [run_apply_eq w tp sp pairs htp hne hsp hcl]
  refine ⟨rfl, by simp, fun i => ?_⟩
  simp

/-- C2 witness: the spec's isolation mock (three proposals, the second
`move_task` raises): the run does not abort, each slot holds its own call's
outcome, and concretely the results are [ok, exn "boom", ok]. -/
theorem C2_isolation_witness :
    (run isolationWorld).aborted = none ∧
    (run isolationWorld).moveResults[1]? =
      (([⟨"T1", "S1"⟩, ⟨"T2", "S2"⟩, ⟨"T3", "S3"⟩] :
        List TaskSectionAssignment)[1]?).map (applyMove isolationWorld) ∧
    (run isolationWorld).moveResults = [.ok, .exn "boom", .ok] := by
  have h := C2_isolation isolationWorld _ _ _ rfl (by decide) rfl rfl
  exact ⟨h.1, h.2.2 1, rfl⟩

/-- C3: after the apply phase there is exactly one captured outcome and
exactly one report line per submitted proposal, in submission order: the
i-th log line is the report of the i-th proposal with its own outcome, and
nothing is dropped, for every proposal list and every success/failure mix. -/
theorem C3_outcome_completeness (w : World) (tp : List (List Task))
    (sp : List (List Sec)) (pairs : List TaskSectionAssignment)
    (htp : w.getTasks = .ok tp) (hne : unassignedOf tp.flatten ≠ [])
    (hsp : w.getSections = .ok sp)
    (hcl : w.classify (promptOf tp.flatten sp.flatten) = .ok pairs) :
    (run w).moveResults.length = pairs.length ∧
    (run w).logLines.length = pairs.length ∧
    ∀ i : Nat, (run w).logLines[i]? = (pairs[i]?).map
      (fun p => reportLine (tp.flatten.map (fun t => (t.id, t.content)))
        (sp.flatten.map (fun s => (s.id, s.name))) p (applyMove w p)) := by
  rw [run_apply_eq w tp sp pairs htp hne hsp hcl]
  refine ⟨by simp, by simp, fun i => ?_⟩
  simp

/-- C3 witness: in the isolation mock every one of the three proposals gets
its own report line, in order, two successes around one failure. -/
theorem C3_outcome_completeness_witness :
    (run isolationWorld).logLines.length = 3 ∧
    (run isolationWorld).logLines.map LogLine.success = [true, false, true] := by
  have h := C3_outcome_completeness isolationWorld _ _ _ rfl (by decide) rfl rfl
  exact ⟨h.2.1.trans (by decide), rfl⟩

/-- C4: a fetch or classification failure aborts the run before any
mutation: whenever the run aborts nothing was moved and nothing was logged;
a task-fetch error aborts with that error and zero `move_task` calls; a
world whose section paginator raises never issues a `move_task` call; and
if the classifier was invoked on the actual request and raised, the run
aborts with that error and zero `move_task` calls. -/
theorem C4_fatal_before_mutation (w : World) :
    ((run w).aborted.isSome = true →
      (run w).moveCalls = [] ∧ (run w).moveResults = [] ∧ (run w).logLines = []) ∧
    (∀ e, w.getTasks = .error e →
      (run w).aborted = some e ∧ (run w).moveCalls = []) ∧
    (∀ e, w.getSections = .error e → (run w).moveCalls = []) ∧
    (∀ e prompt, (run w).classifierRequest = some prompt →
      w.classify prompt = .error e →
      (run w).aborted = some e ∧ (run w).moveCalls = []) := by
  cases hT : w.getTasks with
  | error e =>
    rw [run_tasks_error_eq w e hT]
    refine ⟨fun _ => ⟨rfl, rfl, rfl⟩, ?_, fun _ _ => rfl, ?_⟩
    · intro e' he'
      injection he' with h
      exact ⟨by rw [h], rfl⟩
    · intro e' prompt hreq
      exact absurd hreq (by simp)
  | ok tp =>
    by_cases hum : unassignedOf tp.flatten = []
    · rw [run_noop_eq w tp hT hum]
      refine ⟨fun h => absurd h (by simp), ?_, fun _ _ => rfl, ?_⟩
      · intro e' he'
        exact absurd he' (by simp)
      · intro e' prompt hreq
        exact absurd hreq (by simp)
    · cases hS : w.getSections with
      | error e =>
        rw [run_sections_error_eq w tp e hT hum hS]
        refine ⟨fun _ => ⟨rfl, rfl, rfl⟩, ?_, fun _ _ => rfl, ?_⟩
        · intro e' he'
          exact absurd he' (by simp)
        · intro e' prompt hreq
          exact absurd hreq (by simp)
      | ok sp =>
        cases hC : w.classify (promptOf tp.flatten sp.flatten) with
        | error e =>
          rw [run_classify_error_eq w tp sp e hT hum hS hC]
          refine ⟨fun _ => ⟨rfl, rfl, rfl⟩, ?_, ?_, ?_⟩
          · intro e' he'
            exact absurd he' (by simp)
          · intro e' he'
            exact absurd he' (by simp)
          · intro e' prompt hreq hcl'
            injection hreq with h
            rw [← h, hC] at hcl'
            injection hcl' with h'
            exact ⟨by rw [h'], rfl⟩
        | ok pairs =>
          rw [run_apply_eq w tp sp pairs hT hum hS hC]
          refine ⟨fun h => absurd h (by simp), ?_, ?_, ?_⟩
          · intro e' he'
            exact absurd he' (by simp)
          · intro e' he'
            exact absurd he' (by simp)
          · intro e' prompt hreq hcl'
            injection hreq with h
            rw [← h, hC] at hcl'
            exact absurd hcl' (by simp)

/-- C4 witness: a run whose task paginator raises `fetch "HTTP 500"` aborts
with that error and issues zero `move_task` calls. -/
theorem C4_fatal_before_mutation_witness :
    (run fetchFailWorld).aborted = some (.fetch "HTTP 500") ∧
    (run fetchFailWorld).moveCalls = [] :=
  (C4_fatal_before_mutation fetchFailWorld).2.1 (.fetch "HTTP 500") rfl

/-- C5: when every fetched task already carries a (truthy) section
reference, the run terminates successfully as a no-op: nothing aborted, no
request is ever sent to the agent, and no `move_task` call is issued. -/
theorem C5_noop_short_circuit (w : World) (tp : List (List Task))
    (htp : w.getTasks = .ok tp)
    (hall : ∀ t ∈ tp.flatten, sectionIdTruthy t.section_id = true) :
    (run w).aborted = none ∧ (run w).classifierRequest = none ∧
    (run w).moveCalls = [] := by
  have h : unassignedOf tp.flatten = [] := by
    simp only [unassignedOf, List.filter_eq_nil_iff]
    intro t ht
    simp [hall t ht]
  rw [run_noop_eq w tp htp h]
  exact ⟨rfl, rfl, rfl⟩

/-- C5 witness: in `noopWorld` (every task assigned, agent raising if ever
consulted) the run succeeds with no classifier request and no move. -/
theorem C5_noop_short_circuit_witness :
    (run noopWorld).aborted = none ∧ (run noopWorld).classifierRequest = none ∧
    (run noopWorld).moveCalls = [] :=
  C5_noop_short_circuit noopWorld _ rfl (by decide)

/-- C6: when both paginators succeed and at least one task is unassigned,
the snapshot the run works on is the concatenation of all task pages in
page-then-within-page order — it has one entry per item over all pages and
contains an item iff some page contains it — and likewise for sections. -/
theorem C6_pagination_drained (w : World) (tp : List (List Task))
    (sp : List (List Sec))
    (htp : w.getTasks = .ok tp) (hne : unassignedOf tp.flatten ≠ [])
    (hsp : w.getSections = .ok sp) :
    ((run w).snapshotTasks = tp.flatten ∧
      (run w).snapshotTasks.length = (tp.map List.length).sum ∧
      ∀ t : Task, t ∈ (run w).snapshotTasks ↔ ∃ page ∈ tp, t ∈ page) ∧
    ((run w).snapshotSections = sp.flatten ∧
      (run w).snapshotSections.length = (sp.map List.length).sum ∧
      ∀ s : Sec, s ∈ (run w).snapshotSections ↔ ∃ page ∈ sp, s ∈ page) := by
  cases hC : w.classify (promptOf tp.flatten sp.flatten) with
  | error e =>
    rw [run_classify_error_eq w tp sp e htp hne hsp hC]
    refine ⟨⟨rfl, ?_, fun t => ?_⟩, rfl, ?_, fun s => ?_⟩ <;>
      simp [List.length_flatten, List.mem_flatten]
  | ok pairs =>
    rw [run_apply_eq w tp sp pairs htp hne hsp hC]
    refine ⟨⟨rfl, ?_, fun t => ?_⟩, rfl, ?_, fun s => ?_⟩ <;>
      simp [List.length_flatten, List.mem_flatten]

/-- C6 witness: task pages of sizes [2,3,1] yield a 6-item snapshot and the
two single-element section pages a 2-section snapshot. -/
theorem C6_pagination_drained_witness :
    (run pagesWorld).snapshotTasks.length = 6 ∧
    (run pagesWorld).snapshotSections.length = 2 := by
  have h := C6_pagination_drained pagesWorld _ _ rfl (by decide) rfl
  exact ⟨h.1.2.1.trans (by decide), h.2.2.1.trans (by decide)⟩

/-- C7: in every run whose task fetch succeeds, a snapshot task with a
non-empty section reference is never in the unassigned set, a task with no
section reference always is, and any request actually sent to the agent is
rendered from exactly the unassigned set (and the fetched sections), so an
assigned task is never part of it. -/
theorem C7_filter_correctness (w : World) (tp : List (List Task))
    (htp : w.getTasks = .ok tp) :
    (∀ t ∈ (run w).snapshotTasks, ∀ s : String, t.section_id = some s →
      s ≠ "" → t ∉ (run w).unassignedTasks) ∧
    (∀ t ∈ (run w).snapshotTasks, t.section_id = none →
      t ∈ (run w).unassignedTasks) ∧
    (∀ prompt, (run w).classifierRequest = some prompt →
      prompt = userPrompt (renderTasks (run w).unassignedTasks)
        (renderSections (run w).snapshotSections)) := by
  have hfilter₁ : ∀ t ∈ tp.flatten, ∀ s : String, t.section_id = some s →
      s ≠ "" → t ∉ unassignedOf tp.flatten := by
    intro t _ s hs hne hmem
    have := (mem_unassignedOf_iff tp.flatten t).mp hmem
    rw [hs] at this
    simp only [sectionIdTruthy] at this
    exact hne (by simpa using this.2)
  have hfilter₂ : ∀ t ∈ tp.flatten, t.section_id = none →
      t ∈ unassignedOf tp.flatten := by
    intro t ht hs
    exact (mem_unassignedOf_iff tp.flatten t).mpr ⟨ht, by rw [hs]; rfl⟩
  by_cases hum : unassignedOf tp.flatten = []
  · rw [run_noop_eq w tp htp hum]
    refine ⟨fun t _ _ _ _ h => (by cases h), ?_, ?_⟩
    · intro t ht hs
      exact absurd (hum ▸ hfilter₂ t ht hs) (by simp)
    · intro prompt hreq
      exact absurd hreq (by simp)
  · cases hS : w.getSections with
    | error e =>
      rw [run_sections_error_eq w tp e htp hum hS]
      exact ⟨hfilter₁, hfilter₂, fun prompt hreq => absurd hreq (by simp)⟩
    | ok sp =>
      cases hC : w.classify (promptOf tp.flatten sp.flatten) with
      | error e =>
        rw [run_classify_error_eq w tp sp e htp hum hS hC]
        refine ⟨hfilter₁, hfilter₂, ?_⟩
        intro prompt hreq
        injection hreq with h
        exact h.symm
      | ok pairs =>
        rw [run_apply_eq w tp sp pairs htp hum hS hC]
        refine ⟨hfilter₁, hfilter₂, ?_⟩
        intro prompt hreq
        injection hreq with h
        exact h.symm

/-- C7 witness: the assigned task (section "B1") is not in the unassigned
set of `filterWorld`; the section-less task is. -/
theorem C7_filter_correctness_witness :
    (⟨"T1", "a", some "B1"⟩ : Task) ∉ (run filterWorld).unassignedTasks ∧
    (⟨"T2", "b", none⟩ : Task) ∈ (run filterWorld).unassignedTasks := by
  have h := C7_filter_correctness filterWorld _ rfl
  exact ⟨h.1 _ (by decide) "B1" rfl (by decide), h.2.1 _ (by decide) rfl⟩

/-- C8: the apply phase performs no deduplication: the issued `move_task`
calls are exactly the returned proposal list, pair for pair and in order,
so two proposals sharing a task ID each get their own independent call. -/
theorem C8_no_dedup (w : World) (tp : List (List Task))
    (sp : List (List Sec)) (pairs : List TaskSectionAssignment)
    (htp : w.getTasks = .ok tp) (hne : unassignedOf tp.flatten ≠ [])
    (hsp : w.getSections = .ok sp)
    (hcl : w.classify (promptOf tp.flatten sp.flatten) = .ok pairs) :
    (run w).moveCalls = pairs.map (fun p => (p.task_id, p.section_id)) ∧
    (run w).moveCalls.length = pairs.length := by
  rw [run_apply_eq w tp sp pairs htp hne hsp hcl]
  exact ⟨rfl, by simp⟩

/-- C8 witness: the agent proposes task T1 twice (for S1 and for S2) and
both reassignment calls are issued. -/
theorem C8_no_dedup_witness :
    (run dupWorld).moveCalls = [("T1", "S1"), ("T1", "S2")] := by
  have h := C8_no_dedup dupWorld _ _ _ rfl (by decide) rfl rfl
  exact h.1.trans (by decide)

/-- C9: each report line resolves both IDs of its proposal through the
snapshot's ID→name maps: the emitted names are exactly the map lookups with
raw-ID default; when the ID is absent from the snapshot the raw ID itself
is printed, and when it is present (IDs being distinct) the snapshot's
display label is printed. -/
theorem C9_label_resolution (w : World) (tp : List (List Task))
    (sp : List (List Sec)) (pairs : List TaskSectionAssignment)
    (htp : w.getTasks = .ok tp) (hne : unassignedOf tp.flatten ≠ [])
    (hsp : w.getSections = .ok sp)
    (hcl : w.classify (promptOf tp.flatten sp.flatten) = .ok pairs)
    (i : Nat) (p : TaskSectionAssignment) (hp : pairs[i]? = some p) :
    ∃ line : LogLine, (run w).logLines[i]? = some line ∧
      line.taskName = dictGet (tp.flatten.map (fun t => (t.id, t.content)))
        p.task_id p.task_id ∧
      line.sectionName = dictGet (sp.flatten.map (fun s => (s.id, s.name)))
        p.section_id p.section_id ∧
      ((∀ t ∈ tp.flatten, t.id ≠ p.task_id) → line.taskName = p.task_id) ∧
      ((∀ s ∈ sp.flatten, s.id ≠ p.section_id) →
        line.sectionName = p.section_id) ∧
      (∀ t ∈ tp.flatten, (tp.flatten.map Task.id).Nodup → t.id = p.task_id →
        line.taskName = t.content) ∧
      (∀ s ∈ sp.flatten, (sp.flatten.map Sec.id).Nodup → s.id = p.section_id →
        line.sectionName = s.name) := by
  rw [run_apply_eq w tp sp pairs htp hne hsp hcl]
  refine ⟨reportLine (tp.flatten.map (fun t => (t.id, t.content)))
    (sp.flatten.map (fun s => (s.id, s.name))) p (applyMove w p),
    by simp [hp], reportLine_taskName .., reportLine_sectionName .., ?_, ?_, ?_, ?_⟩
  · intro habs
    rw [reportLine_taskName]
    apply dictGet_of_not_mem
    intro e he
    obtain ⟨t, ht, rfl⟩ := List.mem_map.mp he
    exact habs t ht
  · intro habs
    rw [reportLine_sectionName]
    apply dictGet_of_not_mem
    intro e he
    obtain ⟨s, hs, rfl⟩ := List.mem_map.mp he
    exact habs s hs
  · intro t ht hnd hid
    rw [reportLine_taskName]
    rw [← hid]
    apply dictGet_of_mem_nodup
    · simpa [List.map_map, Function.comp] using hnd
    · exact List.mem_map.mpr ⟨t, ht, rfl⟩
  · intro s hs hnd hid
    rw [reportLine_sectionName]
    rw [← hid]
    apply dictGet_of_mem_nodup
    · simpa [List.map_map, Function.comp] using hnd
    · exact List.mem_map.mpr ⟨s, hs, rfl⟩

/-- C9 witness: in the hallucination scenario the report line for the
proposal (T1, "B999") prints the task's label "Buy milk" (T1 resolves) and
the raw ID "B999" (unknown section, fallback). -/
theorem C9_label_resolution_witness :
    ((run hallucinationWorld).logLines[0]?).map LogLine.taskName =
      some "Buy milk" ∧
    ((run hallucinationWorld).logLines[0]?).map LogLine.sectionName =
      some "B999" := by
  obtain ⟨line, hline, _, _, _, hfb, hpos, _⟩ :=
    C9_label_resolution hallucinationWorld _ _ _ rfl (by decide) rfl rfl
      0 ⟨"T1", "B999"⟩ rfl
  rw [hline]
  constructor
  · show some line.taskName = some "Buy milk"
    rw [hpos ⟨"T1", "Buy milk", none⟩ (by decide) (by decide) rfl]
  · show some line.sectionName = some "B999"
    rw [hfb (by decide)]

/-- C10: when every fetched task already has a (truthy) section reference,
the run returns before touching the section paginator: no section page is
read, the section half of the snapshot stays empty, no `move_task` call is
issued, and the run completes without error. -/
theorem C10_noop_frame (w : World) (tp : List (List Task))
    (htp : w.getTasks = .ok tp) (hall : unassignedOf tp.flatten = []) :
    (run w).sectionsFetched = false ∧ (run w).snapshotSections = [] ∧
    (run w).moveCalls = [] ∧ (run w).aborted = none := by
  rw [run_noop_eq w tp htp hall]
  exact ⟨rfl, rfl, rfl, rfl⟩

/-- C10 witness: in `noopWorld` — whose section paginator would raise if
consulted — the run completes without fetching sections or moving tasks. -/
theorem C10_noop_frame_witness :
    (run noopWorld).sectionsFetched = false ∧
    (run noopWorld).snapshotSections = [] ∧
    (run noopWorld).moveCalls = [] ∧ (run noopWorld).aborted = none :=
  C10_noop_frame noopWorld _ rfl (by decide)

end TodoistSorter
